import Mathlib

/-!
Verification of the vitals-extraction and risk-classification engine
(backend/ml_engine.py): the free-text parser parse_medical_text and the
risk classifier analyze_risk.

The Python regular expressions are embedded as explicit backtracking
matchers over lists of characters.  The matchers reproduce the semantics
of Python re.search for the specific patterns used by the source code:
leftmost match position wins, alternatives are tried left to right, and
quantifiers are greedy with backtracking.  Every quantified subpattern in
the source is either a literal or a single-character class, so the
backtracking search is a simple structural recursion.
-/

/-- Captured groups of a match, in order, as character lists. -/
abbrev Caps := List (List Char)

/-- A matcher consumes a prefix of the input and returns the list of all
possible outcomes (remaining input, captures produced), in the preference
order of a backtracking regex engine: the first element is the outcome
Python re would commit to. -/
abbrev Matcher := List Char → List (List Char × Caps)

/-- Match a literal word (already in the desired case) against the front
of the input, returning the rest. -/
def litMatch : List Char → List Char → Option (List Char)
  | [], s => some s
  | _ :: _, [] => none
  | w :: ws, c :: cs => if c = w then litMatch ws cs else none

/-- Case-insensitive literal match: the pattern word is given in lower
case and input characters are lowered before comparison (Python
re.IGNORECASE). -/
def litMatchCI : List Char → List Char → Option (List Char)
  | [], s => some s
  | _ :: _, [] => none
  | w :: ws, c :: cs => if c.toLower = w then litMatchCI ws cs else none

/-- Literal matcher (no capture). -/
def mlit (w : List Char) : Matcher := fun s =>
  match litMatch w s with
  | some rest => [(rest, [])]
  | none => []

/-- Case-insensitive literal matcher (no capture). -/
def mlitCI (w : List Char) : Matcher := fun s =>
  match litMatchCI w s with
  | some rest => [(rest, [])]
  | none => []

/-- Ordered alternation: outcomes of the left alternative are preferred,
as in Python regex alternation. -/
def malt (a b : Matcher) : Matcher := fun s => a s ++ b s

/-- Greedy option (regex x?): first try to match, then the empty match. -/
def mopt (a : Matcher) : Matcher := fun s => a s ++ [(s, [])]

/-- Single character of a class. -/
def mchar (p : Char → Bool) : Matcher := fun s =>
  match s with
  | [] => []
  | c :: cs => if p c then [(cs, [])] else []

/-- Remainders after consuming a prefix of class characters, longest
consumed first (greedy star over a single-character class). -/
def starRests (p : Char → Bool) : List Char → List (List Char)
  | [] => [[]]
  | c :: cs => if p c then starRests p cs ++ [c :: cs] else [c :: cs]

/-- Greedy star over a single-character class (regex p*). -/
def mstar (p : Char → Bool) : Matcher := fun s =>
  (starRests p s).map (fun r => (r, []))

/-- Greedy plus over a single-character class (regex p+). -/
def mplus (p : Char → Bool) : Matcher := fun s =>
  match s with
  | [] => []
  | c :: cs => if p c then (starRests p cs).map (fun r => (r, [])) else []

/-- Sequencing helper: extend each outcome of the first matcher with
every outcome of the second, preserving backtracking order. -/
def seqList (b : Matcher) : List (List Char × Caps) → List (List Char × Caps)
  | [] => []
  | p :: ps => ((b p.1).map (fun q => (q.1, p.2 ++ q.2))) ++ seqList b ps

/-- Sequential composition of matchers. -/
def mseq (a b : Matcher) : Matcher := fun s => seqList b (a s)

/-- Capturing group around a matcher: records the consumed characters as
an additional leading capture. -/
def mcap (a : Matcher) : Matcher := fun s =>
  (a s).map (fun r => (r.1, (s.take (s.length - r.1.length)) :: r.2))

/-- Greedy bounded repetition of a character class with capture
(regex (p{lo,hi})): alternatives from the longest available repetition
down to lo, each capturing the consumed characters as one group. -/
def mrepCap (p : Char → Bool) (lo hi : Nat) : Matcher := fun s =>
  let m := ((s.take hi).takeWhile p).length
  (((List.range (m + 1)).reverse).filter (fun k => decide (lo ≤ k))).map
    (fun k => (s.drop k, [s.take k]))

/-- ASCII digit class (Python backslash-d on the texts in scope). -/
def pyDigit (c : Char) : Bool := decide (48 ≤ c.toNat) && decide (c.toNat ≤ 57)

/-- ASCII whitespace class (Python backslash-s on the texts in scope). -/
def pySpace (c : Char) : Bool :=
  c = ' ' || c = '\t' || c = '\n' || c = '\x0d' || c = '\x0b' || c = '\x0c'

/-- Python word character (ASCII): letter, digit or underscore. -/
def isWordChar (c : Char) : Bool := c.isAlphanum || c = '_'

/-- Word boundary between two optional characters (text edge counts as a
non-word side): exactly one side is a word character. -/
def wordBoundary (prev next : Option Char) : Bool :=
  (match prev with | some c => isWordChar c | none => false) !=
  (match next with | some c => isWordChar c | none => false)

/-- Python re.search without a leading word-boundary anchor: try each
start position left to right and commit to the first position where the
matcher succeeds, returning (consumed characters, captures). -/
def searchFrom (m : Matcher) : List Char → Option (List Char × Caps)
  | [] =>
    match m [] with
    | r :: _ => some ([], r.2)
    | [] => none
  | c :: cs =>
    match m (c :: cs) with
    | r :: _ => some ((c :: cs).take ((c :: cs).length - r.1.length), r.2)
    | [] => searchFrom m cs

/-- Python re.search for a pattern whose first item is a word-boundary
anchor: like searchFrom, but a start position is only eligible when a
word boundary holds between the previous character and the position. -/
def searchBFrom (m : Matcher) (prev : Option Char) : List Char → Option (List Char × Caps)
  | [] =>
    match (if wordBoundary prev none then m [] else []) with
    | r :: _ => some ([], r.2)
    | [] => none
  | c :: cs =>
    match (if wordBoundary prev (some c) then m (c :: cs) else []) with
    | r :: _ => some ((c :: cs).take ((c :: cs).length - r.1.length), r.2)
    | [] => searchBFrom m (some c) cs

/-- Numeric value of a captured digit string, as Python int() on it. -/
def natOfDigits (cs : List Char) : Nat :=
  cs.foldl (fun n c => 10 * n + (c.toNat - 48)) 0

/-- Preprocessing of parse_medical_text: lower-case the text, then
replace each of colon, hyphen, newline, asterisk and hash with a space. -/
def clean_chars (s : List Char) : List Char :=
  (s.map Char.toLower).map
    (fun c => if c = ':' || c = '-' || c = '\n' || c = '*' || c = '#' then ' ' else c)

/-- Non-digit class used as the label/number gap in the source regexes. -/
def nonDigit (c : Char) : Bool := !(pyDigit c)

/-- Shared shape of the labelled numeric patterns of the source:
a label alternation, then any non-digits, then a captured bounded digit
run. -/
def labeled_num_re (labels : Matcher) (lo hi : Nat) : Matcher :=
  mseq labels (mseq (mstar nonDigit) (mrepCap pyDigit lo hi))

/-- Blood-pressure pattern of the source:
an optional bp/pressure label, any non-digits, a captured 2-3 digit run,
optional spaces, a slash, optional spaces, a second captured 2-3 digit
run. -/
def bp_re : Matcher :=
  mseq (mopt (malt (mlit "bp".toList) (mlit "pressure".toList)))
    (mseq (mstar nonDigit)
      (mseq (mrepCap pyDigit 2 3)
        (mseq (mstar pySpace)
          (mseq (mchar (fun c => c = '/'))
            (mseq (mstar pySpace)
              (mrepCap pyDigit 2 3))))))

/-- Sugar pattern label alternation of the source:
sugar, glucose, rbs, fbs, ppbs, level with optional trailing s. -/
def sugar_labels : Matcher :=
  malt (mlit "sugar".toList)
    (malt (mlit "glucose".toList)
      (malt (mlit "rbs".toList)
        (malt (mlit "fbs".toList)
          (malt (mlit "ppbs".toList)
            (mseq (mlit "level".toList) (mopt (mlit "s".toList)))))))

/-- Sugar pattern of the source. -/
def sugar_re : Matcher := labeled_num_re sugar_labels 2 3

/-- Heart-rate pattern label alternation of the source: hr, pulse, rate, bpm. -/
def hr_labels : Matcher :=
  malt (mlit "hr".toList)
    (malt (mlit "pulse".toList) (malt (mlit "rate".toList) (mlit "bpm".toList)))

/-- Heart-rate pattern of the source. -/
def hr_re : Matcher := labeled_num_re hr_labels 2 3

/-- Age pattern label alternation of the source: age, old. -/
def age_labels : Matcher := malt (mlit "age".toList) (mlit "old".toList)

/-- Age pattern of the source: a 1-2 digit capture. -/
def age_re : Matcher := labeled_num_re age_labels 1 2

/-- Height pattern of the source: captured 2-3 digits, optional spaces,
then cm or centimeters. -/
def height_re : Matcher :=
  mseq (mrepCap pyDigit 2 3)
    (mseq (mstar pySpace) (malt (mlit "cm".toList) (mlit "centimeters".toList)))

/-- Weight pattern of the source: captured 2-3 digits, optional spaces,
then kg or kilograms. -/
def weight_re : Matcher :=
  mseq (mrepCap pyDigit 2 3)
    (mseq (mstar pySpace) (malt (mlit "kg".toList) (mlit "kilograms".toList)))

/-- Blood-group letter alternation of the source, in Python order: a, b, ab, o. -/
def bg_letters_ci : Matcher :=
  malt (mlitCI "a".toList) (malt (mlitCI "b".toList) (malt (mlitCI "ab".toList) (mlitCI "o".toList)))

/-- Adjacent-sign blood-group pattern of the source, run case-insensitively
on the original text: word boundary, letter group, optional single
whitespace, then a plus or minus sign. -/
def bg_adjacent_re : Matcher :=
  mseq (mcap bg_letters_ci)
    (mseq (mopt (mchar pySpace)) (mchar (fun c => c = '+' || c = '-')))

/-- Lower-case blood-group letter alternation for the word-form pattern. -/
def bg_letters : Matcher :=
  malt (mlit "a".toList) (malt (mlit "b".toList) (malt (mlit "ab".toList) (mlit "o".toList)))

/-- Word-form blood-group pattern of the source, run on the cleaned text:
word boundary, captured letter group, whitespace, captured positive or
negative. -/
def bg_word_re : Matcher :=
  mseq (mcap bg_letters)
    (mseq (mplus pySpace)
      (mcap (malt (mlit "positive".toList) (mlit "negative".toList))))

/-- Rendering of an adjacent-sign blood-group match: the whole matched
text upper-cased with spaces removed, as in the source. -/
def render_bg_adjacent (consumed : List Char) : String :=
  String.mk ((consumed.map Char.toUpper).filter (fun c => c ≠ ' '))

/-- Rendering of a word-form blood-group match: the captured letter group
upper-cased, followed by a plus sign when the second capture is the word
positive, else a minus sign. -/
def render_bg_word (caps : Caps) : String :=
  String.mk ((caps.getD 0 []).map Char.toUpper ++
    [if caps.getD 1 [] = "positive".toList then '+' else '-'])

/-- The structured extraction result of parse_medical_text: every field
optional, absent when its pattern found no match. -/
structure VitalsRecord where
  systolic : Option Nat
  diastolic : Option Nat
  sugar : Option Nat
  heart_rate : Option Nat
  age : Option Nat
  height : Option Nat
  weight : Option Nat
  blood_group : Option String
deriving DecidableEq, Repr

/-- Blood-pressure extraction block of the source: a single search of the
paired pattern populates both fields from its two captures, or leaves
both absent. -/
def extract_bp (ct : List Char) : Option Nat × Option Nat :=
  match searchFrom bp_re ct with
  | some (_, caps) =>
    (some (natOfDigits (caps.getD 0 [])), some (natOfDigits (caps.getD 1 [])))
  | none => (none, none)

/-- Single-capture numeric extraction block of the source. -/
def extract_num (re : Matcher) (ct : List Char) : Option Nat :=
  match searchFrom re ct with
  | some (_, caps) => some (natOfDigits (caps.getD 0 []))
  | none => none

/-- Blood-group extraction block of the source: the adjacent-sign pattern
on the original text takes precedence; the word form on the cleaned text
is tried only when the first finds nothing. -/
def extract_blood_group (orig ct : List Char) : Option String :=
  match searchBFrom bg_adjacent_re none orig with
  | some (consumed, _) => some (render_bg_adjacent consumed)
  | none =>
    match searchBFrom bg_word_re none ct with
    | some (_, caps) => some (render_bg_word caps)
    | none => none

/-- Embedding of parse_medical_text from backend/ml_engine.py. -/
def parse_medical_text (text_data : String) : VitalsRecord :=
  let orig := text_data.toList
  let ct := clean_chars orig
  let bp := extract_bp ct
  { systolic := bp.1
    diastolic := bp.2
    sugar := extract_num sugar_re ct
    heart_rate := extract_num hr_re ct
    age := extract_num age_re ct
    height := extract_num height_re ct
    weight := extract_num weight_re ct
    blood_group := extract_blood_group orig ct }

/-- Python truthiness of an optional integer field: absent and zero are
both falsy.  Used by the bp rendering line of the source. -/
def truthy : Option Nat → Bool
  | some n => n != 0
  | none => false

/-- The status_map dictionary of the source on the values it is applied
to: 0 is Healthy, 1 is Warning, everything else reaching it is 2,
Critical. -/
def status_map (n : Nat) : String :=
  if n = 0 then "Healthy" else if n = 1 then "Warning" else "Critical"

/-- Rule-based fallback ladder of the source (strategy 2): start at risk
0 (Healthy) and escalate with max, first on the blood-pressure pair when
both present, then on sugar when present. -/
def rule_based_risk (systolic diastolic sugar : Option Nat) : Nat :=
  let r1 :=
    match systolic, diastolic with
    | some sys, some dia =>
      if 180 ≤ sys ∨ 120 ≤ dia then max 0 2
      else if 140 ≤ sys ∨ 90 ≤ dia then max 0 1
      else 0
    | _, _ => 0
  match sugar with
  | some sug =>
    if 200 ≤ sug then max r1 2 else if 140 ≤ sug then max r1 1 else r1
  | none => r1

/-- The vitals_detected structure returned by analyze_risk: the parsed
record echoed back, with the blood-pressure pair rendered as one string
field. -/
structure VitalsDetected where
  bp : Option String
  sugar : Option Nat
  heart_rate : Option Nat
  height : Option Nat
  weight : Option Nat
  age : Option Nat
  blood_group : Option String
deriving DecidableEq, Repr

/-- The result structure of analyze_risk. -/
structure RiskAssessment where
  risk_level : String
  vitals_detected : VitalsDetected
deriving DecidableEq, Repr

/-- Single-space join of the input records, as the source computes
full_text (an empty sequence joins to the empty string). -/
def joinSpace : List String → String
  | [] => ""
  | [s] => s
  | s :: rest => s ++ " " ++ joinSpace rest

/-- Embedding of analyze_risk from backend/ml_engine.py.  The fitted
random-forest classifier is not reproducible from the source text (its
behaviour is its trained state); following the spec, which makes only the
3-class output a contract, it is passed in as a function rf_predict from
the five feature values to a class index in Fin 3.  Everything else is a
direct translation: the full-feature guard, the 72 default for a missing
heart rate, the rule ladder, and the truthiness-guarded bp rendering. -/
def analyze_risk (rf_predict : Nat → Nat → Nat → Nat → Nat → Fin 3)
    (text_records : List String) : RiskAssessment :=
  let features := parse_medical_text (joinSpace text_records)
  { risk_level :=
      if features.systolic.isSome && features.diastolic.isSome &&
          features.sugar.isSome && features.age.isSome then
        status_map (rf_predict (features.systolic.getD 0) (features.diastolic.getD 0)
          (features.sugar.getD 0) (features.heart_rate.getD 72) (features.age.getD 0)).val
      else if (features.systolic.isSome && features.diastolic.isSome) ||
          features.sugar.isSome then
        status_map (rule_based_risk features.systolic features.diastolic features.sugar)
      else "Insufficient Data"
    vitals_detected :=
      { bp :=
          if truthy features.systolic && truthy features.diastolic then
            some (Nat.repr (features.systolic.getD 0) ++ "/" ++
              Nat.repr (features.diastolic.getD 0))
          else none
        sugar := features.sugar
        heart_rate := features.heart_rate
        height := features.height
        weight := features.weight
        age := features.age
        blood_group := features.blood_group } }

/-! Structural lemmas about the matcher combinators, used to bound the
shape of the captures a pattern can produce. -/

/-- Every outcome of a matcher satisfies a predicate on its captures. -/
def CapsAll (m : Matcher) (P : Caps → Prop) : Prop :=
  ∀ s r, r ∈ m s → P r.2

theorem capsAll_mlit (w : List Char) : CapsAll (mlit w) (fun cs => cs = []) := by
  intro s r h
  unfold mlit at h
  cases hm : litMatch w s <;> simp [hm] at h
  simp [h]

theorem capsAll_mlitCI (w : List Char) : CapsAll (mlitCI w) (fun cs => cs = []) := by
  intro s r h
  unfold mlitCI at h
  cases hm : litMatchCI w s <;> simp [hm] at h
  simp [h]

theorem capsAll_mchar (p : Char → Bool) : CapsAll (mchar p) (fun cs => cs = []) := by
  intro s r h
  unfold mchar at h
  cases s with
  | nil => simp at h
  | cons c cs =>
    by_cases hp : p c <;> simp [hp] at h
    simp [h]

theorem capsAll_mstar (p : Char → Bool) : CapsAll (mstar p) (fun cs => cs = []) := by
  intro s r h
  unfold mstar at h
  obtain ⟨x, -, hx⟩ := List.mem_map.mp h
  simp [← hx]

theorem capsAll_malt {a b : Matcher} {P : Caps → Prop}
    (ha : CapsAll a P) (hb : CapsAll b P) : CapsAll (malt a b) P := by
  intro s r h
  rcases List.mem_append.mp h with h' | h'
  · exact ha s r h'
  · exact hb s r h'

theorem capsAll_mopt {a : Matcher} {P : Caps → Prop}
    (ha : CapsAll a P) (he : P []) : CapsAll (mopt a) P := by
  intro s r h
  rcases List.mem_append.mp h with h' | h'
  · exact ha s r h'
  · simp at h'
    simp [h', he]

theorem mem_seqList {b : Matcher} {r : List Char × Caps} :
    ∀ {l : List (List Char × Caps)}, r ∈ seqList b l →
      ∃ p ∈ l, ∃ q ∈ b p.1, r = (q.1, p.2 ++ q.2) := by
  intro l
  induction l with
  | nil => intro h; simp [seqList] at h
  | cons p ps ih =>
    intro h
    rcases List.mem_append.mp h with h' | h'
    · obtain ⟨q, hq, hr⟩ := List.mem_map.mp h'
      exact ⟨p, List.mem_cons_self p ps, q, hq, hr.symm⟩
    · obtain ⟨p', hp', q, hq, hr⟩ := ih h'
      exact ⟨p', List.mem_cons_of_mem p hp', q, hq, hr⟩

theorem capsAll_mseq {a b : Matcher} {P Q : Caps → Prop}
    (ha : CapsAll a P) (hb : CapsAll b Q) :
    CapsAll (mseq a b) (fun cs => ∃ u v, P u ∧ Q v ∧ cs = u ++ v) := by
  intro s r h
  obtain ⟨p, hp, q, hq, hr⟩ := mem_seqList h
  exact ⟨p.2, q.2, ha s p hp, hb p.1 q hq, by simp [hr]⟩

/-- Characters of a take within the satisfying prefix of takeWhile all
satisfy the class predicate. -/
theorem take_takeWhile_sat (p : Char → Bool) :
    ∀ (l : List Char) (k : Nat), k ≤ (l.takeWhile p).length →
      ∀ c ∈ l.take k, p c = true := by
  intro l
  induction l with
  | nil => intro k _ c hc; simp at hc
  | cons x xs ih =>
    intro k hk c hc
    by_cases hp : p x
    · cases k with
      | zero => simp at hc
      | succ k' =>
        simp [List.takeWhile_cons, hp] at hk
        simp [List.take_succ_cons] at hc
        rcases hc with hc | hc
        · exact hc ▸ hp
        · exact ih k' (by omega) c hc
    · simp [List.takeWhile_cons, hp] at hk
      subst hk
      simp at hc

/-- Shape of the outcomes of a bounded captured digit run: exactly one
capture, of length between lo and hi, all characters in the class. -/
theorem mrepCap_caps (p : Char → Bool) (lo hi : Nat) :
    CapsAll (mrepCap p lo hi)
      (fun cs => ∃ w, cs = [w] ∧ lo ≤ w.length ∧ w.length ≤ hi ∧
        ∀ c ∈ w, p c = true) := by
  intro s r h
  unfold mrepCap at h
  obtain ⟨k, hk, hr⟩ := List.mem_map.mp h
  obtain ⟨hkmem, hklo⟩ := List.mem_filter.mp hk
  have hklo' : lo ≤ k := of_decide_eq_true hklo
  have hkm : k ≤ ((s.take hi).takeWhile p).length := by
    have := List.mem_reverse.mp hkmem
    have := List.mem_range.mp this
    omega
  have hwlen : ((s.take hi).takeWhile p).length ≤ (s.take hi).length :=
    (List.takeWhile_prefix p).length_le
  have hhi : (s.take hi).length ≤ hi := by
    simp [List.length_take]
  have hks : k ≤ s.length := by
    have : (s.take hi).length ≤ s.length := by simp [List.length_take]
    omega
  refine ⟨s.take k, by simp [← hr], ?_, ?_, ?_⟩
  · simp [List.length_take]
    omega
  · simp [List.length_take]
    omega
  · intro c hc
    have hkhi : k ≤ hi := by omega
    have heq : (s.take hi).take k = s.take k := by
      rw [List.take_take]
      simp [Nat.min_eq_left hkhi]
    have := take_takeWhile_sat p (s.take hi) k hkm c
    rw [heq] at this
    exact this hc

/-- A successful search yields the captures of some outcome of the
matcher on some suffix of the input. -/
theorem searchFrom_caps {m : Matcher} :
    ∀ {s : List Char} {res}, searchFrom m s = some res →
      ∃ s' r, r ∈ m s' ∧ res.2 = r.2 := by
  intro s
  induction s with
  | nil =>
    intro res h
    simp only [searchFrom] at h
    cases hm : m [] with
    | nil => rw [hm] at h; simp at h
    | cons r rs =>
      rw [hm] at h
      simp at h
      exact ⟨[], r, by simp [hm], by simp [← h]⟩
  | cons c cs ih =>
    intro res h
    simp only [searchFrom] at h
    cases hm : m (c :: cs) with
    | nil => rw [hm] at h; exact ih h
    | cons r rs =>
      rw [hm] at h
      simp at h
      exact ⟨c :: cs, r, by simp [hm], by simp [← h]⟩

/-- Captures of the labelled numeric patterns: when the label matcher
produces no captures, a full match captures exactly one digit run of
length between lo and hi. -/
theorem labeled_num_caps {labels : Matcher} (hlab : CapsAll labels (fun cs => cs = []))
    (lo hi : Nat) :
    CapsAll (labeled_num_re labels lo hi)
      (fun cs => ∃ w, cs = [w] ∧ lo ≤ w.length ∧ w.length ≤ hi ∧
        ∀ c ∈ w, pyDigit c = true) := by
  have hgap : CapsAll (mstar nonDigit) (fun cs => cs = []) := capsAll_mstar nonDigit
  have hrep := mrepCap_caps pyDigit lo hi
  have hinner := capsAll_mseq hgap hrep
  have houter := capsAll_mseq hlab hinner
  intro s r h
  obtain ⟨u, v, hu, ⟨u', v', hu', hv', hv⟩, hr⟩ := houter s r h
  obtain ⟨w, hw, hlo, hhi, hdig⟩ := hv'
  exact ⟨w, by simp [hr, hu, hv, hu', hw], hlo, hhi, hdig⟩

/-- The age labels capture nothing. -/
theorem age_labels_caps : CapsAll age_labels (fun cs => cs = []) :=
  capsAll_malt (capsAll_mlit _) (capsAll_mlit _)

/-- A digit list of length at most two denotes a value below 100. -/
theorem natOfDigits_lt_100 (w : List Char) (hlen : w.length ≤ 2)
    (hdig : ∀ c ∈ w, pyDigit c = true) : natOfDigits w < 100 := by
  match w with
  | [] => simp [natOfDigits]
  | [c] =>
    have h1 := hdig c (by simp)
    simp [pyDigit, Bool.and_eq_true, decide_eq_true_eq] at h1
    simp [natOfDigits]
    omega
  | [c1, c2] =>
    have h1 := hdig c1 (by simp)
    have h2 := hdig c2 (by simp)
    simp [pyDigit, Bool.and_eq_true, decide_eq_true_eq] at h1 h2
    simp [natOfDigits, List.foldl]
    omega
  | _ :: _ :: _ :: _ => simp at hlen

/-- The status_map dictionary never yields the insufficient-data verdict. -/
theorem status_map_ne_insufficient (n : Nat) : ¬ status_map n = "Insufficient Data" := by
  unfold status_map
  split_ifs <;> decide

/-- The status_map dictionary yields one of the three class names. -/
theorem status_map_three_classes (n : Nat) :
    status_map n = "Healthy" ∨ status_map n = "Warning" ∨ status_map n = "Critical" := by
  unfold status_map
  split_ifs <;> simp

/-- Numeric severity of a risk-level string: Healthy 0, Warning 1,
Critical 2 (anything else above). -/
def risk_severity (s : String) : Nat :=
  if s = "Healthy" then 0 else if s = "Warning" then 1 else if s = "Critical" then 2 else 3

/-- On the ladder values 0, 1, 2, risk_severity inverts status_map. -/
theorem risk_severity_status_map (n : Nat) (h : n ≤ 2) :
    risk_severity (status_map n) = n := by
  interval_cases n <;> decide

/-- The rule ladder never exceeds severity 2. -/
theorem rule_based_risk_le_two (systolic diastolic sugar : Option Nat) :
    rule_based_risk systolic diastolic sugar ≤ 2 := by
  unfold rule_based_risk
  cases systolic <;> cases diastolic <;> cases sugar <;>
    simp only [Nat.max_def] <;> first
      | omega
      | (split_ifs <;> omega)

/-- The rule ladder value is monotone in present systolic and diastolic
readings, the sugar reading held fixed. -/
theorem rule_based_risk_mono (s1 d1 s2 d2 : Nat) (sug : Option Nat)
    (hs : s1 ≤ s2) (hd : d1 ≤ d2) :
    rule_based_risk (some s1) (some d1) sug ≤ rule_based_risk (some s2) (some d2) sug := by
  unfold rule_based_risk
  cases sug <;> simp only [Nat.max_def] <;> split_ifs <;> omega

/-- Any age value the extractor produces is below 100. -/
theorem extract_age_lt_100 (ct : List Char) (a : Nat)
    (h : extract_num age_re ct = some a) : a < 100 := by
  unfold extract_num at h
  cases hs : searchFrom age_re ct with
  | none => rw [hs] at h; simp at h
  | some res =>
    rw [hs] at h
    obtain ⟨s', r, hr, hcaps⟩ := searchFrom_caps hs
    obtain ⟨w, hw, -, hhi, hdig⟩ :=
      labeled_num_caps age_labels_caps 1 2 s' r hr
    simp at h
    rw [← h]
    have : res.2 = [w] := by rw [hcaps, hw]
    obtain ⟨c1, c2⟩ := res
    simp at this
    simp [this]
    exact natOfDigits_lt_100 w hhi hdig

/-- The blood-pressure extraction block as one equation: a successful
search populates both fields from its two captures, a failed search
leaves both absent. -/
theorem extract_bp_eq (ct : List Char) :
    extract_bp ct = (match searchFrom bp_re ct with
      | some res => (some (natOfDigits (res.2.getD 0 [])),
          some (natOfDigits (res.2.getD 1 [])))
      | none => (none, none)) := by
  unfold extract_bp
  cases searchFrom bp_re ct with
  | none => rfl
  | some res =>
    obtain ⟨c, caps⟩ := res
    rfl

/-! Claim theorems. -/

/-- Claim C1 counterexample: the claim states that for a text such as
"age 105" the age field of the returned record is absent; the code
instead captures the first two digits after the label and returns age 10,
so the field is present. -/
theorem age_truncation_counterexample :
    (parse_medical_text "age 105").age = some 10 ∧
    ¬ (parse_medical_text "age 105").age = none := by
  refine ⟨by decide, by decide⟩

/-- Claim C1 (amended): the extractor populates the age field only from a
1-2 digit number following an age or old label, so every extracted age is
below 100; but a text with a longer number such as "age 105" does not
leave the field absent: the pattern captures the first two digits and
yields age 10. -/
theorem age_two_digit_truncation :
    (∀ t a, (parse_medical_text t).age = some a → a < 100) ∧
    (parse_medical_text "age 105").age = some 10 := by
  constructor
  · intro t a h
    exact extract_age_lt_100 (clean_chars t.toList) a h
  · decide

/-- Claim C1 witness: the amended universal bound applied at the concrete
input "age 47". -/
theorem age_two_digit_truncation_witness :
    (parse_medical_text "age 47").age = some 47 ∧ 47 < 100 :=
  ⟨by decide, age_two_digit_truncation.1 "age 47" 47 (by decide)⟩

/-- Claim C2: on the partial-feature path (BP pair or sugar extracted but
not all of BP, sugar and age), the risk level is status_map of the rule
ladder; the ladder starts at 0 (Healthy) and is the maximum of the BP
check (2 when systolic at least 180 or diastolic at least 120, else 1
when systolic at least 140 or diastolic at least 90, else 0) and the
sugar check (2 when at least 200, else 1 when at least 140, else 0); and
assessRisk on the single record "bp 160/100 age 60" returns Warning. -/
theorem rule_ladder_bp_sugar_max :
    (∀ rf texts,
      (((parse_medical_text (joinSpace texts)).systolic.isSome &&
          (parse_medical_text (joinSpace texts)).diastolic.isSome) ||
          (parse_medical_text (joinSpace texts)).sugar.isSome) = true →
      ((parse_medical_text (joinSpace texts)).systolic.isSome &&
          (parse_medical_text (joinSpace texts)).diastolic.isSome &&
          (parse_medical_text (joinSpace texts)).sugar.isSome &&
          (parse_medical_text (joinSpace texts)).age.isSome) = false →
      (analyze_risk rf texts).risk_level =
        status_map (rule_based_risk (parse_medical_text (joinSpace texts)).systolic
          (parse_medical_text (joinSpace texts)).diastolic
          (parse_medical_text (joinSpace texts)).sugar)) ∧
    (∀ sys dia sug, rule_based_risk (some sys) (some dia) sug =
      max (if 180 ≤ sys ∨ 120 ≤ dia then 2 else if 140 ≤ sys ∨ 90 ≤ dia then 1 else 0)
        (match sug with
         | some g => if 200 ≤ g then 2 else if 140 ≤ g then 1 else 0
         | none => 0)) ∧
    (∀ sug, rule_based_risk none none (some sug) =
      (if 200 ≤ sug then 2 else if 140 ≤ sug then 1 else 0)) ∧
    (∀ rf, (analyze_risk rf ["bp 160/100 age 60"]).risk_level = "Warning") := by
  refine ⟨?_, ?_, ?_, ?_⟩
  · intro rf texts hpart hfull
    simp [analyze_risk, hfull, hpart]
  · intro sys dia sug
    unfold rule_based_risk
    cases sug <;> simp only [Nat.max_def] <;> split_ifs <;> omega
  · intro sug
    unfold rule_based_risk
    simp only [Nat.max_def]
    split_ifs <;> omega
  · intro rf
    rfl

/-- Claim C2 witness: the partial-feature conclusion applied at the
concrete input "bp 160/100 age 60" with a constant classifier. -/
theorem rule_ladder_bp_sugar_max_witness :
    (analyze_risk (fun _ _ _ _ _ => 0) ["bp 160/100 age 60"]).risk_level =
      status_map (rule_based_risk
        (parse_medical_text (joinSpace ["bp 160/100 age 60"])).systolic
        (parse_medical_text (joinSpace ["bp 160/100 age 60"])).diastolic
        (parse_medical_text (joinSpace ["bp 160/100 age 60"])).sugar) :=
  rule_ladder_bp_sugar_max.1 (fun _ _ _ _ _ => 0) ["bp 160/100 age 60"]
    (by decide) (by decide)

/-- Claim C3: analyze_risk returns Insufficient Data exactly when neither
the blood-pressure pair nor sugar was extracted from the concatenated
input, whatever other fields were found; the detected vitals are echoed
back unchanged; and the empty input sequence yields Insufficient Data
with an all-absent vitals structure. -/
theorem insufficient_data_iff_no_bp_no_sugar :
    (∀ rf texts,
      ((analyze_risk rf texts).risk_level = "Insufficient Data" ↔
        (((parse_medical_text (joinSpace texts)).systolic.isSome &&
            (parse_medical_text (joinSpace texts)).diastolic.isSome) ||
            (parse_medical_text (joinSpace texts)).sugar.isSome) = false) ∧
      (analyze_risk rf texts).vitals_detected.sugar =
        (parse_medical_text (joinSpace texts)).sugar ∧
      (analyze_risk rf texts).vitals_detected.heart_rate =
        (parse_medical_text (joinSpace texts)).heart_rate ∧
      (analyze_risk rf texts).vitals_detected.height =
        (parse_medical_text (joinSpace texts)).height ∧
      (analyze_risk rf texts).vitals_detected.weight =
        (parse_medical_text (joinSpace texts)).weight ∧
      (analyze_risk rf texts).vitals_detected.age =
        (parse_medical_text (joinSpace texts)).age ∧
      (analyze_risk rf texts).vitals_detected.blood_group =
        (parse_medical_text (joinSpace texts)).blood_group) ∧
    (∀ rf, analyze_risk rf [] =
      { risk_level := "Insufficient Data",
        vitals_detected := ⟨none, none, none, none, none, none, none⟩ }) := by
  constructor
  · intro rf texts
    refine ⟨?_, by simp [analyze_risk], by simp [analyze_risk], by simp [analyze_risk],
      by simp [analyze_risk], by simp [analyze_risk], by simp [analyze_risk]⟩
    cases h1 : (parse_medical_text (joinSpace texts)).systolic.isSome <;>
      cases h2 : (parse_medical_text (joinSpace texts)).diastolic.isSome <;>
        cases h3 : (parse_medical_text (joinSpace texts)).sugar.isSome <;>
          cases h4 : (parse_medical_text (joinSpace texts)).age.isSome <;>
            simp [analyze_risk, h1, h2, h3, h4, status_map_ne_insufficient]
  · intro rf
    have hp : parse_medical_text (joinSpace []) =
        ⟨none, none, none, none, none, none, none, none⟩ := by decide
    simp [analyze_risk, hp, truthy]

/-- Claim C4: for every input text, the record returned by the extractor
has systolic and diastolic either both present or both absent: both are
populated from the two captures of a single search of the paired pattern,
and when that search fails both stay absent. -/
theorem bp_both_or_neither (t : String) :
    ((parse_medical_text t).systolic.isSome ↔ (parse_medical_text t).diastolic.isSome) ∧
    ((parse_medical_text t).systolic, (parse_medical_text t).diastolic) =
      (match searchFrom bp_re (clean_chars t.toList) with
       | some res => (some (natOfDigits (res.2.getD 0 [])),
           some (natOfDigits (res.2.getD 1 [])))
       | none => (none, none)) := by
  constructor
  · show (extract_bp (clean_chars t.toList)).1.isSome ↔
      (extract_bp (clean_chars t.toList)).2.isSome
    rw [extract_bp_eq]
    cases searchFrom bp_re (clean_chars t.toList) <;> simp
  · show ((extract_bp (clean_chars t.toList)).1, (extract_bp (clean_chars t.toList)).2) = _
    rw [extract_bp_eq]

/-- Claim C5 counterexample: the claim states that the bp field is the
combined string whenever both systolic and diastolic were extracted,
including zero values parsed from zero-padded digits; on the input
"00/80" both are extracted (0 and 80) yet the bp field is absent,
because the source guards the rendering with Python truthiness and 0 is
falsy. -/
theorem bp_render_zero_counterexample :
    (parse_medical_text (joinSpace ["00/80"])).systolic = some 0 ∧
    (parse_medical_text (joinSpace ["00/80"])).diastolic = some 80 ∧
    (analyze_risk (fun _ _ _ _ _ => 0) ["00/80"]).vitals_detected.bp = none := by
  refine ⟨by decide, by decide, by decide⟩

/-- Claim C5 (amended): the bp field of the returned vitals is the
combined string "systolic/diastolic" exactly when both values are
extracted and both are nonzero; when either is absent or either equals
zero, the field is absent. -/
theorem bp_render_truthy (rf : Nat → Nat → Nat → Nat → Nat → Fin 3) (texts : List String) :
    (analyze_risk rf texts).vitals_detected.bp =
      (match (parse_medical_text (joinSpace texts)).systolic,
          (parse_medical_text (joinSpace texts)).diastolic with
       | some s, some d =>
         if s ≠ 0 ∧ d ≠ 0 then some (Nat.repr s ++ "/" ++ Nat.repr d) else none
       | _, _ => none) := by
  cases hs : (parse_medical_text (joinSpace texts)).systolic with
  | none => simp [analyze_risk, truthy, hs]
  | some s =>
    cases hd : (parse_medical_text (joinSpace texts)).diastolic with
    | none => simp [analyze_risk, truthy, hs, hd]
    | some d =>
      by_cases h0 : s = 0 <;> by_cases h1 : d = 0 <;>
        simp [analyze_risk, truthy, hs, hd, h0, h1]

/-- Claim C6: whenever the blood-pressure pair, sugar and age are all
extracted, analyze_risk takes the full-feature path: the risk level is
status_map of the classifier applied to the feature vector systolic,
diastolic, sugar, heart rate defaulting to 72 when absent, and age; and
the result is one of Healthy, Warning, Critical, never Insufficient
Data. -/
theorem full_feature_model_path (rf : Nat → Nat → Nat → Nat → Nat → Fin 3)
    (texts : List String) (s d g a : Nat)
    (hs : (parse_medical_text (joinSpace texts)).systolic = some s)
    (hd : (parse_medical_text (joinSpace texts)).diastolic = some d)
    (hg : (parse_medical_text (joinSpace texts)).sugar = some g)
    (ha : (parse_medical_text (joinSpace texts)).age = some a) :
    (analyze_risk rf texts).risk_level =
      status_map (rf s d g ((parse_medical_text (joinSpace texts)).heart_rate.getD 72) a).val ∧
    ((analyze_risk rf texts).risk_level = "Healthy" ∨
     (analyze_risk rf texts).risk_level = "Warning" ∨
     (analyze_risk rf texts).risk_level = "Critical") := by
  have h1 : (analyze_risk rf texts).risk_level =
      status_map (rf s d g ((parse_medical_text (joinSpace texts)).heart_rate.getD 72) a).val := by
    simp [analyze_risk, hs, hd, hg, ha]
  exact ⟨h1, h1 ▸ status_map_three_classes _⟩

/-- Claim C6 witness: the full-feature conclusion at the concrete input
"bp 120/80 sugar 90 age 25" with a constant classifier. -/
theorem full_feature_model_path_witness :
    (parse_medical_text (joinSpace ["bp 120/80 sugar 90 age 25"])).systolic = some 120 ∧
    ((analyze_risk (fun _ _ _ _ _ => 0) ["bp 120/80 sugar 90 age 25"]).risk_level = "Healthy" ∨
     (analyze_risk (fun _ _ _ _ _ => 0) ["bp 120/80 sugar 90 age 25"]).risk_level = "Warning" ∨
     (analyze_risk (fun _ _ _ _ _ => 0) ["bp 120/80 sugar 90 age 25"]).risk_level = "Critical") :=
  ⟨by decide,
    (full_feature_model_path (fun _ _ _ _ _ => 0) ["bp 120/80 sugar 90 age 25"] 120 80 90 25
      (by decide) (by decide) (by decide) (by decide)).2⟩

/-- Claim C7: on the rule-ladder path, with the extracted sugar fixed,
increasing the extracted systolic and diastolic values never decreases
the severity of the resulting risk level. -/
theorem rule_ladder_monotone (s1 d1 s2 d2 : Nat) (sug : Option Nat)
    (hs : s1 ≤ s2) (hd : d1 ≤ d2) :
    risk_severity (status_map (rule_based_risk (some s1) (some d1) sug)) ≤
      risk_severity (status_map (rule_based_risk (some s2) (some d2) sug)) := by
  rw [risk_severity_status_map _ (rule_based_risk_le_two _ _ _),
    risk_severity_status_map _ (rule_based_risk_le_two _ _ _)]
  exact rule_based_risk_mono s1 d1 s2 d2 sug hs hd

/-- Claim C7 witness: monotonicity applied across the Warning threshold
at concrete readings. -/
theorem rule_ladder_monotone_witness :
    (100 ≤ 150 ∧ 80 ≤ 95) ∧
    risk_severity (status_map (rule_based_risk (some 100) (some 80) none)) ≤
      risk_severity (status_map (rule_based_risk (some 150) (some 95) none)) :=
  ⟨by decide, rule_ladder_monotone 100 80 150 95 none (by decide) (by decide)⟩

/-- Claim C8: blood-group extraction tries the adjacent-sign pattern on
the original text first and falls back to the word form only when it
finds nothing: "Blood Group: O+" gives O+, the word form
"blood group O positive" gives O+, a text with neither pattern leaves the
field absent, and when both patterns could match the adjacent-sign one
wins; the adjacent-sign letter groups match case-insensitively, so the
mixed-case "AB+" and "aB- donor" are extracted and rendered upper-case as
AB+ and AB-. -/
theorem blood_group_patterns :
    (parse_medical_text "Blood Group: O+").blood_group = some "O+" ∧
    (parse_medical_text "blood group O positive").blood_group = some "O+" ∧
    (parse_medical_text "hello world").blood_group = none ∧
    (parse_medical_text "a positive o+").blood_group = some "O+" ∧
    (parse_medical_text "blood group o negative").blood_group = some "O-" ∧
    (parse_medical_text "AB+").blood_group = some "AB+" ∧
    (parse_medical_text "aB- donor").blood_group = some "AB-" := by
  refine ⟨by decide, by decide, by decide, by decide, by decide, by decide, by decide⟩

/-- Claim C9: the sugar, heart-rate and age labels are matched without
word boundaries, so a label occurring inside an unrelated word triggers
extraction of the following number: "three 45" yields heart rate 45 (the
label hr occurs inside three), "sausage 77" yields age 77, and
"glucoseless 99" yields sugar 99. -/
theorem label_substring_extraction :
    (parse_medical_text "three 45").heart_rate = some 45 ∧
    (parse_medical_text "sausage 77").age = some 77 ∧
    (parse_medical_text "glucoseless 99").sugar = some 99 := by
  refine ⟨by decide, by decide, by decide⟩

/-- Claim C10: the adjacent-sign blood-group pattern runs on the original
text, where hyphens are still present, so any word-initial group letter
followed by a hyphen is read as a negative blood group, whatever its
case: "vitamin b-12 deficiency" yields blood group B- although the text
carries no blood-group information, "o-ring seal" yields O-, and the
upper-case two-letter group in "AB-12 blood count" yields AB-; the
cleaned text, by contrast, has the hyphen replaced by a space. -/
theorem hyphen_blood_group_false_positive :
    (parse_medical_text "vitamin b-12 deficiency").blood_group = some "B-" ∧
    (parse_medical_text "o-ring seal").blood_group = some "O-" ∧
    (parse_medical_text "AB-12 blood count").blood_group = some "AB-" ∧
    clean_chars "b-12".toList = "b 12".toList := by
  refine ⟨by decide, by decide, by decide, by decide⟩
